import Mathlib

/-!
Verification of the Sea Salt & Paper scoring engine (`utils/game_logic.py`).

The Python module exposes two pure functions:
  * `calculate_score(card_text)` parses `<integer> <card-name>` pairs out of
    free-form text (regex built from `CARD_MAP`, longest names first,
    case-insensitive) and evaluates collector tables, seahorse substitution,
    duo pairing, cross-type combos, starfish trios and multiplier cards,
    returning `(response_text, card_counts)`.
  * `calculate_color_bonus(card_text, called_last_chance, caller,
    caller_succeeded)` parses `<integer> <word>` pairs, treats any word
    containing "mermaid" as the bonus key, and computes the color bonus plus
    an explanation, gated by the three round-outcome flags.

The embedding below mirrors the source line by line.  Strings are modelled at
the ASCII level (`List Char` scanning over `String.toList`).  Python `int` is
modelled by `Int` where scoring mutates values (`card_counts`), and by `Nat`
where values only ever come from digit parsing (the color-bonus path).
Operations that can raise in Python (list indexing, `max` of a list) are
modelled in `Option`, and the whole evaluation is threaded through `Option`,
so that totality ("the core never raises") is a provable statement rather
than an artifact of the embedding.
-/

/-- Points for collector cards based on count (index 0 is for 0 cards). -/
def SHELL_POINTS : List Int := [0, 0, 2, 4, 6, 8, 10]

def OCTOPUS_POINTS : List Int := [0, 0, 3, 6, 9, 12]

def PENGUIN_POINTS : List Int := [0, 1, 3, 5]

def SAILOR_POINTS : List Int := [0, 0, 5]

/-- `COLLECTOR_POINTS_MAP`, in Python dict insertion order. -/
def COLLECTOR_POINTS_MAP : List (String × List Int) :=
  [("shell", SHELL_POINTS), ("octopus", OCTOPUS_POINTS),
   ("penguin", PENGUIN_POINTS), ("sailor", SAILOR_POINTS)]

def COLLECTOR_TYPES : List String := ["shell", "octopus", "penguin", "sailor"]

/-- `CARD_MAP`: canonical names for user input variations, in Python dict
insertion order (the order matters for the stable length sort below). -/
def CARD_MAP : List (String × String) :=
  [("crab", "crab"), ("crabs", "crab"),
   ("boat", "boat"), ("boats", "boat"),
   ("fish", "fish"),
   ("swimmer", "swimmer"),
   ("shark", "shark"),
   ("shell", "shell"), ("shells", "shell"),
   ("octopus", "octopus"), ("octopuses", "octopus"),
   ("penguin", "penguin"), ("penguins", "penguin"),
   ("sailor", "sailor"), ("sailors", "sailor"),
   ("lighthouse", "lighthouse"),
   ("shoal", "shoal"), ("shoal of fish", "shoal"),
   ("colony", "colony"), ("penguin colony", "colony"),
   ("captain", "captain"),
   ("basket", "basket"), ("basket of crabs", "basket"),
   ("jellyfish", "jellyfish"), ("jellyfishes", "jellyfish"),
   ("seahorse", "seahorse"),
   ("starfish", "starfish"),
   ("lobster", "lobster")]

/-- `card_counts`: a Python dict modelled as an association list without
duplicate keys; counts are Python ints, hence `Int`. -/
abbrev CardCounts := List (String × Int)

/-- `card_counts.get(k, 0)` / `defaultdict` read access. -/
def getCount (m : CardCounts) (k : String) : Int :=
  (m.lookup k).getD 0

/-- `k in card_counts`. -/
def hasKey (m : CardCounts) (k : String) : Bool :=
  (m.lookup k).isSome

/-- `card_counts[k] += v` on a `defaultdict(int)`: update the first entry for
`k` in place, or append a fresh entry with the default 0 plus `v`. -/
def addTo : CardCounts → String → Int → CardCounts
  | [], k, v => [(k, v)]
  | (k', v') :: rest, k, v =>
      if k' = k then (k', v' + v) :: rest else (k', v') :: addTo rest k v

/-! ### The regex scan

`re.compile(r"(\d+)\s+(" + card_pattern + r")", re.IGNORECASE).findall(text)`
where `card_pattern` is the alternation of `CARD_MAP` keys sorted by
descending length (Python `sorted(..., key=len, reverse=True)` is stable).
`findall` attempts a match at each position, emitting `(digits, name)` and
resuming after the match on success, advancing one character on failure.
Backtracking is vacuous for this pattern: `\d+` and `\s+` are maximal runs
(shrinking them re-exposes a digit/space which no alternative starts with),
and the alternation tries alternatives left to right. -/

/-- Insert `x` into a list already sorted descending by `key`, after any
element of equal key (stability). -/
def insDesc (key : α → Nat) (x : α) : List α → List α
  | [] => [x]
  | y :: ys => if key x ≤ key y then y :: insDesc key x ys else x :: y :: ys

/-- Stable descending sort by `key`; agrees with Python
`sorted(l, key=key, reverse=True)` (stable sorts are unique). -/
def sortDescBy (key : α → Nat) (l : List α) : List α :=
  l.foldl (fun acc x => insDesc key x acc) []

/-- `sorted_card_names = sorted(CARD_MAP.keys(), key=len, reverse=True)`. -/
def sorted_card_names : List String :=
  sortDescBy String.length (CARD_MAP.map (fun p => p.1))

/-- Maximal run of characters satisfying `p` at the front: `(run, rest)`. -/
def splitRun (p : Char → Bool) : List Char → List Char × List Char
  | [] => ([], [])
  | c :: cs =>
      if p c then
        let r := splitRun p cs
        (c :: r.1, r.2)
      else ([], c :: cs)

/-- `\d` (ASCII model). -/
def isDigitChar (c : Char) : Bool := '0' ≤ c && c ≤ '9'

/-- `\s` (ASCII model): space, tab, newline, carriage return, vertical tab,
form feed. -/
def isSpaceChar (c : Char) : Bool :=
  c = ' ' || c = '\t' || c = '\n' || c = '\r' || c = Char.ofNat 11 || c = Char.ofNat 12

/-- `int()` of a nonempty digit string. -/
def natOfDigits (ds : List Char) : Nat :=
  ds.foldl (fun a c => a * 10 + (c.toNat - 48)) 0

/-- Case-insensitive literal match: the (lowercase) pattern `nm` matches the
front of `s` (ASCII model of `re.IGNORECASE`). -/
def ciMatch : List Char → List Char → Bool
  | [], _ => true
  | _ :: _, [] => false
  | c :: cs, d :: ds => c = d.toLower && ciMatch cs ds

/-- The alternation: first name (in the given order) matching at the front of
`s`, returning the key and the rest of the input.  The capture group text,
lowercased and stripped, equals the key itself since all keys are lowercase
with no surrounding blanks. -/
def matchAlt : List String → List Char → Option (String × List Char)
  | [], _ => none
  | nm :: nms, s =>
      if ciMatch nm.toList s then some (nm, s.drop nm.toList.length)
      else matchAlt nms s

/-- One match attempt of `(\d+)\s+(alternation)` at the current position. -/
def tryMatchCard (s : List Char) : Option (Nat × String × List Char) :=
  let d := splitRun isDigitChar s
  if d.1.isEmpty then none
  else
    let w := splitRun isSpaceChar d.2
    if w.1.isEmpty then none
    else
      match matchAlt sorted_card_names w.2 with
      | some (nm, rest) => some (natOfDigits d.1, nm, rest)
      | none => none

/-- `findall` scan; `fuel` bounds the number of positions tried (each step
consumes at least one character, so `length + 1` is always enough). -/
def scanAux : Nat → List Char → List (Nat × String)
  | 0, _ => []
  | fuel + 1, s =>
      match tryMatchCard s with
      | some (n, nm, rest) => (n, nm) :: scanAux fuel rest
      | none =>
          match s with
          | [] => []
          | _ :: t => scanAux fuel t

/-- `pattern.findall(card_text)` for the card pattern. -/
def scanCards (text : String) : List (Nat × String) :=
  scanAux (text.toList.length + 1) text.toList

/-- Lines 52-55: accumulate matches through `CARD_MAP.get`. -/
def buildCounts (ms : List (Nat × String)) : CardCounts :=
  ms.foldl
    (fun m p =>
      match CARD_MAP.lookup p.2 with
      | some canonical => addTo m canonical (p.1 : Int)
      | none => m)
    []

/-! ### Base scoring (`calculate_score`, lines 39-211)

Python list indexing can raise `IndexError`, so it is modelled in `Option`
(`pyIndex`, including negative-index wraparound), and the evaluation is
threaded through `Option`. -/

/-- Python `l[i]` on a list of ints: non-negative indices must be in range,
negative indices wrap from the end. -/
def pyIndex (l : List Int) (i : Int) : Option Int :=
  if 0 ≤ i then l[i.toNat]?
  else if -i ≤ (l.length : Int) then l[l.length - (-i).toNat]? else none

/-- Python `str.capitalize()`: first character uppercased, the rest
lowercased. -/
def capFirst (s : String) : String :=
  match s.toList with
  | [] => s
  | c :: cs => String.mk (c.toUpper :: cs.map Char.toLower)

/-- Lines 66-71: the marginal gain of giving one more card to collector `t`,
read off the clamped point table. -/
def gainAt (m : CardCounts) (t : String) : Option Int := do
  let current_count := getCount m t
  let new_count := current_count + 1
  let points_array ← COLLECTOR_POINTS_MAP.lookup t
  let current_points_index := min current_count ((points_array.length : Int) - 1)
  let new_points_index := min new_count ((points_array.length : Int) - 1)
  let pc ← pyIndex points_array current_points_index
  let pn ← pyIndex points_array new_points_index
  pure (pn - pc)

/-- Lines 62-74: the `for collector_type in COLLECTOR_TYPES` loop carrying
`(max_gain, best_collector_type)`, considering only collectors with a
strictly positive current count. -/
def findBest (m : CardCounts) : List String → Int × Option String → Option (Int × Option String)
  | [], acc => some acc
  | t :: ts, acc =>
      if getCount m t > 0 then do
        let gain ← gainAt m t
        if gain > acc.1 then findBest m ts (gain, some t)
        else findBest m ts acc
      else findBest m ts acc

def substLine (t : String) (g : Int) : String :=
  "1 Seahorse used for " ++ t ++ ": +" ++ toString g ++ " pts"

/-- Lines 61-79: the seahorse substitution block.  Note the block runs once
per call to `calculate_score`; it is not repeated per seahorse unit. -/
def substSectionE (m : CardCounts) : Option (CardCounts × List String) :=
  if hasKey m "seahorse" && getCount m "seahorse" > 0 then do
    let best ← findBest m COLLECTOR_TYPES (-1, none)
    match best.2 with
    | some t =>
        if best.1 > 0 then
          some (addTo (addTo m "seahorse" (-1)) t 1, [substLine t best.1])
        else some (m, [])
    | none => some (m, [])
  else some (m, [])

def collectorLine (count : Int) (card : String) (points : Int) : String :=
  toString count ++ " " ++ capFirst card ++ "(s): " ++ toString points ++ " pts"

/-- Lines 82-87: `for card, points_list in COLLECTOR_POINTS_MAP.items()`. -/
def collectorFold (m : CardCounts) : List (String × List Int) → Int × List String → Option (Int × List String)
  | [], acc => some acc
  | p :: ps, acc =>
      if hasKey m p.1 then do
        let count := min (getCount m p.1) ((p.2.length : Int) - 1)
        let points ← pyIndex p.2 count
        collectorFold m ps (acc.1 + points, acc.2 ++ [collectorLine count p.1 points])
      else collectorFold m ps acc

def collectorSectionE (m : CardCounts) : Option (Int × List String) :=
  collectorFold m COLLECTOR_POINTS_MAP (0, [])

def duoLine (pairs : Int) (card : String) : String :=
  toString pairs ++ " pair(s) of " ++ capFirst card ++ "s: " ++ toString pairs ++ " pts"

/-- Lines 89-95: `for card in ["crab", "boat", "fish"]`, one point per full
pair (`count // 2`, Python floor division). -/
def duoFold (m : CardCounts) : List String → Int × List String → Int × List String
  | [], acc => acc
  | card :: cards, acc =>
      if hasKey m card then
        let pairs := (getCount m card).fdiv 2
        if pairs > 0 then duoFold m cards (acc.1 + pairs, acc.2 ++ [duoLine pairs card])
        else duoFold m cards acc
      else duoFold m cards acc

def duoSection (m : CardCounts) : Int × List String :=
  duoFold m ["crab", "boat", "fish"] (0, [])

/-- Lines 97-143: shark+swimmer, jellyfish+swimmer and crab+lobster combos
with their leftover reporting.  Combo consumption only updates the local
variables (`swimmers`, `crabs`, `lobsters`), never `card_counts`; the two
`leftover_*` computations for sharks and jellyfish read the original
swimmer count back out of the map. -/
def comboSection (m : CardCounts) : Int × List String :=
  let sharks := getCount m "shark"
  let swimmers := getCount m "swimmer"
  let jellyfish := getCount m "jellyfish"
  let s1 : Int × List String × Int :=
    if sharks > 0 && swimmers > 0 then
      let combos := min sharks swimmers
      (combos, [toString combos ++ " Shark+Swimmer combo(s): " ++ toString combos ++ " pts"],
       swimmers - combos)
    else (0, [], swimmers)
  let swimmers1 := s1.2.2
  let leftover_sharks := sharks - min sharks (getCount m "swimmer")
  let lines2 :=
    if leftover_sharks > 0 then [toString leftover_sharks ++ " leftover Shark(s): 0 pts"] else []
  let s2 : Int × List String × Int :=
    if jellyfish > 0 && swimmers1 > 0 then
      let combos := min jellyfish swimmers1
      (combos, [toString combos ++ " Jellyfish+Swimmer combo(s): " ++ toString combos ++ " pts"],
       swimmers1 - combos)
    else (0, [], swimmers1)
  let swimmers2 := s2.2.2
  let leftover_jellyfish := jellyfish - min jellyfish (getCount m "swimmer")
  let lines4 :=
    if leftover_jellyfish > 0 then
      [toString leftover_jellyfish ++ " leftover Jellyfish(es): 0 pts"]
    else []
  let lines5 :=
    if swimmers2 > 0 then [toString swimmers2 ++ " leftover Swimmer(s): 0 pts"] else []
  let crabs := getCount m "crab"
  let lobsters := getCount m "lobster"
  let s3 : Int × List String × Int × Int :=
    if crabs > 0 && lobsters > 0 then
      let combos := min crabs lobsters
      (combos, [toString combos ++ " Crab+Lobster combo(s): " ++ toString combos ++ " pts"],
       crabs - combos, lobsters - combos)
    else (0, [], crabs, lobsters)
  let crabs1 := s3.2.2.1
  let lobsters1 := s3.2.2.2
  let leftover_crabs := crabs1 - min crabs1 (getCount m "lobster")
  let lines7 :=
    if leftover_crabs > 0 then
      if getCount m "basket" > 0 then
        [toString leftover_crabs ++ " leftover Crab(s): counted by Basket"]
      else [toString leftover_crabs ++ " leftover Crab(s): 0 pts"]
    else []
  let lines8 :=
    if lobsters1 > 0 then [toString lobsters1 ++ " leftover Lobster(s): 0 pts"] else []
  (s1.1 + s2.1 + s3.1,
   s1.2.1 ++ lines2 ++ s2.2.1 ++ lines4 ++ lines5 ++ s3.2.1 ++ lines7 ++ lines8)

/-- Lines 163-167: `while num_duos > 0 and starfish > 0`, accumulating
`(trio_points, used_starfish, starfish)`.  Each iteration decrements
`starfish`, so `starfish.toNat` steps of fuel always run the loop to its
guard-failure exit. -/
def starfishLoop : Nat → Int → Int × Int × Int → Int × Int × Int
  | 0, _, acc => acc
  | fuel + 1, num_duos, (trio, used, starfish) =>
      if num_duos > 0 && starfish > 0 then
        starfishLoop fuel (num_duos - 1) (trio + 3, used + 1, starfish - 1)
      else (trio, used, starfish)

/-- Lines 145-171: the starfish trio block.  `duo_pairs` is computed from the
map counts (not reduced by the combo section), in dict literal order. -/
def starfishSection (m : CardCounts) : Int × List String :=
  let starfish := getCount m "starfish"
  if starfish > 0 then
    let duo_pairs : List Int :=
      [(getCount m "crab").fdiv 2,
       (getCount m "boat").fdiv 2,
       (getCount m "fish").fdiv 2,
       min (getCount m "shark") (getCount m "swimmer"),
       min (getCount m "jellyfish") (getCount m "swimmer"),
       min (getCount m "crab") (getCount m "lobster")]
    let r := duo_pairs.foldl (fun acc nd => starfishLoop acc.2.2.toNat nd acc) (0, 0, starfish)
    if r.2.1 > 0 then
      (r.1, [toString r.2.1 ++ " Starfish Trio(s): " ++ toString r.1 ++ " pts (duo effect canceled)"])
    else (0, [])
  else (0, [])

/-- Lines 173-197: the five multiplier blocks.  Each reads its two input
counts straight out of `card_counts`. -/
def multSection (m : CardCounts) : Int × List String :=
  let r1 : Int × List String :=
    if hasKey m "lighthouse" && hasKey m "boat" then
      let points := getCount m "lighthouse" * getCount m "boat"
      (points, ["Lighthouse + Boats: " ++ toString points ++ " pts"])
    else (0, [])
  let r2 : Int × List String :=
    if hasKey m "shoal" && hasKey m "fish" then
      let points := getCount m "shoal" * getCount m "fish"
      (points, ["Shoal + Fish: " ++ toString points ++ " pts"])
    else (0, [])
  let r3 : Int × List String :=
    if hasKey m "colony" && hasKey m "penguin" then
      let points := getCount m "colony" * getCount m "penguin" * 2
      (points, ["Colony + Penguins: " ++ toString points ++ " pts"])
    else (0, [])
  let r4 : Int × List String :=
    if hasKey m "captain" && hasKey m "sailor" then
      let points := getCount m "captain" * getCount m "sailor" * 3
      (points, ["Captain + Sailors: " ++ toString points ++ " pts"])
    else (0, [])
  let r5 : Int × List String :=
    if hasKey m "basket" && hasKey m "crab" then
      let points := getCount m "basket" * getCount m "crab"
      (points, ["Basket + Crabs: " ++ toString points ++ " pts"])
    else (0, [])
  (r1.1 + r2.1 + r3.1 + r4.1 + r5.1, r1.2 ++ r2.2 ++ r3.2 ++ r4.2 ++ r5.2)

/-- Lines 57-197: the whole evaluation on a parsed count map, producing
`(total_score, score_breakdown, card_counts)`; `card_counts` is returned as
mutated by the substitution block. -/
def scoreCoreE (m0 : CardCounts) : Option (Int × List String × CardCounts) := do
  let sub ← substSectionE m0
  let m := sub.1
  let col ← collectorSectionE m
  let duo := duoSection m
  let combo := comboSection m
  let star := starfishSection m
  let mult := multSection m
  pure (col.1 + duo.1 + combo.1 + star.1 + mult.1,
        sub.2 ++ col.2 ++ duo.2 ++ combo.2 ++ star.2 ++ mult.2,
        m)

def apos : String := String.singleton (Char.ofNat 39)

def noValidMsg : String :=
  "I couldn" ++ apos ++ "t find any valid cards in your message. Please use the format: `/score 2 crabs, 3 shells`"

def noScorableMsg : String :=
  "I couldn" ++ apos ++ "t find any scorable cards in your message. Try again! If you were trying to score a mermaid card, do it under /color_bonus."

/-- Lines 207-209. -/
def renderResponse (total : Int) (breakdown : List String) : String :=
  "Here" ++ apos ++ "s your score breakdown:\n" ++
  String.intercalate "\n" (breakdown.map (fun item => "• " ++ item)) ++
  "\n\n**Total Score: " ++ toString total ++ "**"

/-- `calculate_score` (lines 39-211). -/
def calculate_scoreE (card_text : String) : Option (String × CardCounts) := do
  let ms := scanCards card_text
  if ms.isEmpty then pure (noValidMsg, [])
  else
    let card_counts := buildCounts ms
    let r ← scoreCoreE card_counts
    if r.2.1.isEmpty then pure (noScorableMsg, [])
    else pure (renderResponse r.1 r.2.1, r.2.2)

/-! ### Color bonus (`calculate_color_bonus`, lines 214-265)

The pattern is `(\d+)\s+([a-zA-Z]+)` over `card_text.lower()`.  A matched
word containing `"mermaid"` overwrites the mermaid count; every other
matched word appends its count to `color_counts` as its own group. -/

/-- `[a-zA-Z]`. -/
def isLetterChar (c : Char) : Bool :=
  ('a' ≤ c && c ≤ 'z') || ('A' ≤ c && c ≤ 'Z')

/-- One match attempt of `(\d+)\s+([a-zA-Z]+)` at the current position. -/
def tryMatchColor (s : List Char) : Option (Nat × String × List Char) :=
  let d := splitRun isDigitChar s
  if d.1.isEmpty then none
  else
    let w := splitRun isSpaceChar d.2
    if w.1.isEmpty then none
    else
      let nm := splitRun isLetterChar w.2
      if nm.1.isEmpty then none
      else some (natOfDigits d.1, String.mk nm.1, nm.2)

/-- `findall` scan for the color pattern. -/
def scanColorAux : Nat → List Char → List (Nat × String)
  | 0, _ => []
  | fuel + 1, s =>
      match tryMatchColor s with
      | some (n, nm, rest) => (n, nm) :: scanColorAux fuel rest
      | none =>
          match s with
          | [] => []
          | _ :: t => scanColorAux fuel t

/-- `pattern.findall(card_text.lower())` (ASCII lowercasing). -/
def scanColors (text : String) : List (Nat × String) :=
  let lowered := text.toList.map Char.toLower
  scanColorAux (lowered.length + 1) lowered

/-- Literal match of `pat` at the front of `s`. -/
def atFront : List Char → List Char → Bool
  | [], _ => true
  | _ :: _, [] => false
  | c :: cs, d :: ds => c = d && atFront cs ds

def hasSubAux (pat : List Char) : List Char → Bool
  | [] => atFront pat []
  | d :: ds => atFront pat (d :: ds) || hasSubAux pat ds

/-- Python `pat in s` substring containment. -/
def hasSub (pat s : String) : Bool :=
  hasSubAux pat.toList s.toList

/-- Lines 225-233: fold the matches into `(mermaid_count, color_counts)`.
A mermaid match overwrites the mermaid count; any other match appends its
own color group. -/
def processMatches (ms : List (Nat × String)) : Nat × List Nat :=
  ms.foldl
    (fun acc p => if hasSub "mermaid" p.2 then (p.1, acc.2) else (acc.1, acc.2 ++ [p.1]))
    (0, [])

/-- Python `max(l)`: raises on an empty list. -/
def pyMax (l : List Nat) : Option Nat :=
  match l with
  | [] => none
  | x :: xs => some (xs.foldl max x)

/-- Lines 235-251: compute `(bonus_points, explanation)` before the
round-outcome flags are considered. -/
def colorCoreE (mermaid_count : Nat) (color_counts : List Nat) : Option (Nat × String) :=
  if mermaid_count ≥ 1 then
    let sorted := sortDescBy id color_counts
    let groups_to_score := min mermaid_count sorted.length
    let selected_groups := sorted.take groups_to_score
    let bonus_points := selected_groups.sum
    let breakdown := String.intercalate " + " (selected_groups.map toString)
    some (bonus_points,
      "You have **" ++ toString mermaid_count ++ " Mermaid(s)** → score your top **" ++
      toString groups_to_score ++ "** color group(s): " ++ breakdown ++
      ".\n**Total Color Bonus: " ++ toString bonus_points ++ "**")
  else do
    let bonus_points ← if color_counts.isEmpty then pure 0 else pyMax color_counts
    pure (bonus_points,
      "No Mermaids → score your largest color group only.\n**Total Color Bonus: " ++
      toString bonus_points ++ "**")

/-- `calculate_color_bonus` (lines 214-265). -/
def calculate_color_bonusE (card_text : String)
    (called_last_chance caller caller_succeeded : Bool) : Option (Nat × String) :=
  if !called_last_chance then
    some (0, "No color bonus is scored when the round ends with **Stop**.")
  else
    let ms := scanColors card_text
    if ms.isEmpty then
      some (0, "Please list your cards by color count. Example: `/color-bonus 4 blue, 3 pink, 1 mermaid`")
    else do
      let pm := processMatches ms
      let core ← colorCoreE pm.1 pm.2
      if caller then
        if caller_succeeded then
          pure (core.1, core.2 ++ "\n(Called Last Chance and succeeded: you keep your full points **plus** this bonus.)")
        else
          pure (core.1, core.2 ++ "\n(Called Last Chance and failed: you score **only this color bonus**.)")
      else
        if caller_succeeded then
          pure (core.1, core.2 ++ "\n(Another player called Last Chance and succeeded: you score **only this color bonus**.)")
        else
          pure (0, core.2 ++ "\n(Caller failed their Last Chance: you score your **normal card points only**, no color bonus.)")

/-! ### Spec-side definitions

These follow the specification's words (not the code), for refinement
comparisons. -/

/-- The marginal gain of claim C1's greedy rule, over the clamped point
table, defined for any collector category, present in the hand or not. -/
def specGain (m : CardCounts) (t : String) : Int :=
  let arr := (COLLECTOR_POINTS_MAP.lookup t).getD []
  let cc := getCount m t
  let ci := min cc ((arr.length : Int) - 1)
  let ni := min (cc + 1) ((arr.length : Int) - 1)
  arr.getD ni.toNat 0 - arr.getD ci.toNat 0

/-- The collector category with the largest marginal gain, ties broken by
first positive-max in category iteration order, paired with its gain. -/
def specPick (m : CardCounts) : String × Int :=
  COLLECTOR_TYPES.foldl
    (fun acc t => if specGain m t > acc.2 then (t, specGain m t) else acc)
    ("", -1)

/-- Claim C1's substitution semantics: one greedy substitution per seahorse
unit, applied while the best marginal gain stays strictly positive. -/
def specSubstitutePerUnit : Nat → CardCounts → CardCounts
  | 0, m => m
  | fuel + 1, m =>
      if getCount m "seahorse" > 0 then
        let best := specPick m
        if best.2 > 0 then
          specSubstitutePerUnit fuel (addTo (addTo m "seahorse" (-1)) best.1 1)
        else m
      else m

/-- Claim C1's substitution process run over every seahorse unit present. -/
def specSubstituteAll (m : CardCounts) : CardCounts :=
  specSubstitutePerUnit (getCount m "seahorse").toNat m

/-- Claim C6's bonus rule, from the spec's words: with no bonus key, the
single largest color group counts (zero if none); with `n ≥ 1` keys, sum the
top `min n (number of groups)` groups sorted descending. -/
def specColorBonus (groups : List Nat) (n : Nat) : Nat :=
  if n = 0 then groups.foldl max 0
  else ((sortDescBy id groups).take (min n groups.length)).sum

/-- The bonus-key (mermaid) count the color-bonus call parses from `text`. -/
def mermaidCountOf (text : String) : Nat :=
  (processMatches (scanColors text)).1

/-- The color groups the color-bonus call parses from `text`, in match
order. -/
def colorGroupsOf (text : String) : List Nat :=
  (processMatches (scanColors text)).2

/-! ### Helper lemmas: count maps -/

theorem getCount_nil (k : String) : getCount [] k = 0 := rfl

theorem getCount_cons (k' k : String) (v : Int) (rest : CardCounts) :
    getCount ((k', v) :: rest) k = if k = k' then v else getCount rest k := by
  by_cases h : k = k'
  · simp [getCount, List.lookup, h]
  · have hb : (k == k') = false := beq_eq_false_iff_ne.mpr h
    simp [getCount, List.lookup, hb, h]

theorem hasKey_nil (k : String) : hasKey [] k = false := rfl

theorem hasKey_cons (k' k : String) (v : Int) (rest : CardCounts) :
    hasKey ((k', v) :: rest) k = if k = k' then true else hasKey rest k := by
  by_cases h : k = k'
  · simp [hasKey, List.lookup, h]
  · have hb : (k == k') = false := beq_eq_false_iff_ne.mpr h
    simp [hasKey, List.lookup, hb, h]

/-- All counts in a map are non-negative. -/
def Nonneg (m : CardCounts) : Prop := ∀ p ∈ m, 0 ≤ p.2

theorem getCount_nonneg {m : CardCounts} (hn : Nonneg m) (k : String) :
    0 ≤ getCount m k := by
  induction m with
  | nil => simp [getCount_nil]
  | cons p rest ih =>
      obtain ⟨k', v⟩ := p
      rw [getCount_cons]
      split
      · exact hn (k', v) (List.mem_cons_self _ _)
      · exact ih fun q hq => hn q (List.mem_cons_of_mem _ hq)

theorem addTo_nonneg {m : CardCounts} (hn : Nonneg m) {k : String} {v : Int}
    (hv : 0 ≤ v) : Nonneg (addTo m k v) := by
  induction m with
  | nil =>
      intro p hp
      simp only [addTo, List.mem_singleton] at hp
      simp [hp, hv]
  | cons q rest ih =>
      obtain ⟨k', v'⟩ := q
      intro p hp
      simp only [addTo] at hp
      split at hp
      · rcases List.mem_cons.mp hp with h | h
        · have h1 : 0 ≤ v' := hn (k', v') (List.mem_cons_self _ _)
          subst h
          simpa using Int.add_nonneg h1 hv
        · exact hn p (List.mem_cons_of_mem _ h)
      · rcases List.mem_cons.mp hp with h | h
        · subst h
          exact hn (k', v') (List.mem_cons_self _ _)
        · exact ih (fun q hq => hn q (List.mem_cons_of_mem _ hq)) p h

theorem addTo_dec_nonneg {m : CardCounts} (hn : Nonneg m) {k : String}
    (hpos : 1 ≤ getCount m k) : Nonneg (addTo m k (-1)) := by
  induction m with
  | nil => simp [getCount_nil] at hpos
  | cons q rest ih =>
      obtain ⟨k', v'⟩ := q
      intro p hp
      simp only [addTo] at hp
      split at hp
      · rename_i heq
        rcases List.mem_cons.mp hp with h | h
        · have hv : getCount ((k', v') :: rest) k = v' := by
            rw [getCount_cons, if_pos heq.symm]
          subst h
          simp only
          omega
        · exact hn p (List.mem_cons_of_mem _ h)
      · rename_i hne
        rcases List.mem_cons.mp hp with h | h
        · subst h
          exact hn (k', v') (List.mem_cons_self _ _)
        · have hv : getCount ((k', v') :: rest) k = getCount rest k := by
            rw [getCount_cons, if_neg]
            intro hk
            exact hne hk.symm
          rw [hv] at hpos
          exact ih (fun q hq => hn q (List.mem_cons_of_mem _ hq)) hpos p h

theorem buildCounts_nonneg (ms : List (Nat × String)) : Nonneg (buildCounts ms) := by
  suffices h : ∀ acc : CardCounts, Nonneg acc →
      Nonneg (ms.foldl
        (fun m p =>
          match CARD_MAP.lookup p.2 with
          | some canonical => addTo m canonical (p.1 : Int)
          | none => m) acc) by
    exact h [] (by intro p hp; cases hp)
  induction ms with
  | nil => intro acc hacc; exact hacc
  | cons q qs ih =>
      intro acc hacc
      simp only [List.foldl_cons]
      apply ih
      cases h : CARD_MAP.lookup q.2 with
      | none => simpa [h] using hacc
      | some canonical =>
          simp only [h]
          exact addTo_nonneg hacc (by positivity)

theorem hasKey_addTo {m : CardCounts} {k k' : String} {v : Int}
    (h : hasKey m k = true) : hasKey (addTo m k' v) k = true := by
  induction m with
  | nil => simp [hasKey_nil] at h
  | cons q rest ih =>
      obtain ⟨k'', v''⟩ := q
      rw [hasKey_cons] at h
      simp only [addTo]
      split
      · rename_i heq
        rw [hasKey_cons]
        split at h
        · rename_i hk; rw [if_pos hk]
        · rw [if_neg (by assumption)]; exact h
      · rw [hasKey_cons]
        split at h
        · rename_i hk; rw [if_pos hk]
        · rw [if_neg (by assumption)]
          exact ih h

theorem addTo_ne_nil (m : CardCounts) (k : String) (v : Int) :
    addTo m k v ≠ [] := by
  cases m with
  | nil => simp [addTo]
  | cons q rest =>
      obtain ⟨k', v'⟩ := q
      simp only [addTo]
      split <;> simp

/-! ### Helper lemmas: the substitution block -/

theorem pyIndex_isSome (l : List Int) (i : Int) (h0 : 0 ≤ i)
    (h1 : i < (l.length : Int)) : ∃ v, pyIndex l i = some v := by
  have ht : i.toNat < l.length := by omega
  refine ⟨l[i.toNat], ?_⟩
  simp [pyIndex, h0, List.getElem?_eq_getElem ht]

theorem gainAt_some_of_lookup {m : CardCounts} {t : String} {arr : List Int}
    (harr : COLLECTOR_POINTS_MAP.lookup t = some arr) (hlen : 1 ≤ arr.length)
    (hc : 0 < getCount m t) : ∃ g, gainAt m t = some g := by
  obtain ⟨v1, h1⟩ :=
    pyIndex_isSome arr (min (getCount m t) ((arr.length : Int) - 1))
      (by omega) (by omega)
  obtain ⟨v2, h2⟩ :=
    pyIndex_isSome arr (min (getCount m t + 1) ((arr.length : Int) - 1))
      (by omega) (by omega)
  refine ⟨v2 - v1, ?_⟩
  simp only [gainAt, harr, Option.bind_eq_bind, Option.some_bind, h1, h2,
    Option.pure_def]

theorem gainAt_some {m : CardCounts} {t : String} (ht : t ∈ COLLECTOR_TYPES)
    (hc : 0 < getCount m t) : ∃ g, gainAt m t = some g := by
  fin_cases ht
  · exact gainAt_some_of_lookup
      (show COLLECTOR_POINTS_MAP.lookup "shell" = some SHELL_POINTS from rfl)
      (by decide) hc
  · exact gainAt_some_of_lookup
      (show COLLECTOR_POINTS_MAP.lookup "octopus" = some OCTOPUS_POINTS from rfl)
      (by decide) hc
  · exact gainAt_some_of_lookup
      (show COLLECTOR_POINTS_MAP.lookup "penguin" = some PENGUIN_POINTS from rfl)
      (by decide) hc
  · exact gainAt_some_of_lookup
      (show COLLECTOR_POINTS_MAP.lookup "sailor" = some SAILOR_POINTS from rfl)
      (by decide) hc

/-- Characterization of the `for collector_type in COLLECTOR_TYPES` fold:
it succeeds, its gain only grows, it bounds the gain of every considered
collector with positive count, and either nothing changed or the returned
best collector attains the returned gain. -/
theorem findBest_spec (m : CardCounts) (L : List String) :
    ∀ (mg : Int) (b : Option String),
      (∀ t ∈ L, 0 < getCount m t → ∃ g, gainAt m t = some g) →
      ∃ mg' b', findBest m L (mg, b) = some (mg', b') ∧ mg ≤ mg' ∧
        (∀ u ∈ L, 0 < getCount m u → ∃ gu, gainAt m u = some gu ∧ gu ≤ mg') ∧
        ((mg' = mg ∧ b' = b) ∨
          ∃ t, t ∈ L ∧ 0 < getCount m t ∧ gainAt m t = some mg' ∧
            b' = some t ∧ mg < mg') := by
  induction L with
  | nil =>
      intro mg b _
      exact ⟨mg, b, rfl, le_refl _, by simp, Or.inl ⟨rfl, rfl⟩⟩
  | cons t ts ih =>
      intro mg b hsome
      by_cases hp : 0 < getCount m t
      · obtain ⟨g, hg⟩ := hsome t (List.mem_cons_self _ _) hp
        by_cases hgt : g > mg
        · obtain ⟨mg', b', hfb, hle, hbound, hcases⟩ :=
            ih g (some t) (fun u hu => hsome u (List.mem_cons_of_mem _ hu))
          refine ⟨mg', b', ?_, by omega, ?_, ?_⟩
          · simp only [findBest, if_pos hp, hg, Option.bind_eq_bind,
              Option.some_bind, if_pos hgt]
            exact hfb
          · intro u hu hup
            rcases List.mem_cons.mp hu with h | h
            · subst h
              exact ⟨g, hg, hle⟩
            · exact hbound u h hup
          · rcases hcases with ⟨h1, h2⟩ | ⟨t', ht', hp', hg', hb', hlt'⟩
            · exact Or.inr ⟨t, List.mem_cons_self _ _, hp, h1 ▸ hg, h2, by omega⟩
            · exact Or.inr ⟨t', List.mem_cons_of_mem _ ht', hp', hg', hb', by omega⟩
        · obtain ⟨mg', b', hfb, hle, hbound, hcases⟩ :=
            ih mg b (fun u hu => hsome u (List.mem_cons_of_mem _ hu))
          refine ⟨mg', b', ?_, hle, ?_, ?_⟩
          · simp only [findBest, if_pos hp, hg, Option.bind_eq_bind,
              Option.some_bind, if_neg hgt]
            exact hfb
          · intro u hu hup
            rcases List.mem_cons.mp hu with h | h
            · subst h
              exact ⟨g, hg, by omega⟩
            · exact hbound u h hup
          · rcases hcases with ⟨h1, h2⟩ | ⟨t', ht', hp', hg', hb', hlt'⟩
            · exact Or.inl ⟨h1, h2⟩
            · exact Or.inr ⟨t', List.mem_cons_of_mem _ ht', hp', hg', hb', hlt'⟩
      · obtain ⟨mg', b', hfb, hle, hbound, hcases⟩ :=
          ih mg b (fun u hu => hsome u (List.mem_cons_of_mem _ hu))
        refine ⟨mg', b', ?_, hle, ?_, ?_⟩
        · simp only [findBest, if_neg hp]
          exact hfb
        · intro u hu hup
          rcases List.mem_cons.mp hu with h | h
          · subst h; exact absurd hup hp
          · exact hbound u h hup
        · rcases hcases with ⟨h1, h2⟩ | ⟨t', ht', hp', hg', hb', hlt'⟩
          · exact Or.inl ⟨h1, h2⟩
          · exact Or.inr ⟨t', List.mem_cons_of_mem _ ht', hp', hg', hb', hlt'⟩

/-- Characterization of the whole substitution block (lines 61-79): it never
fails, and either it leaves the counts untouched, or exactly one seahorse
unit is moved to a collector that is present with positive count and whose
marginal gain is strictly positive and maximal among present collectors. -/
theorem substSectionE_spec (m : CardCounts) :
    ∃ p, substSectionE m = some p ∧
      (p = (m, []) ∨
        ∃ t g, t ∈ COLLECTOR_TYPES ∧ 0 < getCount m t ∧ gainAt m t = some g ∧
          0 < g ∧ 0 < getCount m "seahorse" ∧
          (∀ u ∈ COLLECTOR_TYPES, 0 < getCount m u →
            ∃ gu, gainAt m u = some gu ∧ gu ≤ g) ∧
          p = (addTo (addTo m "seahorse" (-1)) t 1, [substLine t g])) := by
  by_cases hs : (hasKey m "seahorse" && decide (getCount m "seahorse" > 0)) = true
  · obtain ⟨mg', b', hfb, hle, hbound, hcases⟩ :=
      findBest_spec m COLLECTOR_TYPES (-1) none
        (fun t ht hp => gainAt_some ht hp)
    have hsea : 0 < getCount m "seahorse" := by
      have h2 := (Bool.and_eq_true _ _).mp hs
      exact of_decide_eq_true h2.2
    rcases hcases with ⟨h1, h2⟩ | ⟨t, ht, hp, hg, hb, hlt⟩
    · subst h2
      refine ⟨(m, []), ?_, Or.inl rfl⟩
      simp only [substSectionE, if_pos hs, hfb, Option.bind_eq_bind,
        Option.some_bind]
    · subst hb
      by_cases hpos : mg' > 0
      · refine ⟨(addTo (addTo m "seahorse" (-1)) t 1, [substLine t mg']), ?_, ?_⟩
        · simp only [substSectionE, if_pos hs, hfb, Option.bind_eq_bind,
            Option.some_bind]
          rw [if_pos hpos]
        · exact Or.inr ⟨t, mg', ht, hp, hg, hpos, hsea,
            fun u hu hup => hbound u hu hup, rfl⟩
      · refine ⟨(m, []), ?_, Or.inl rfl⟩
        simp only [substSectionE, if_pos hs, hfb, Option.bind_eq_bind,
          Option.some_bind]
        rw [if_neg hpos]
  · refine ⟨(m, []), ?_, Or.inl rfl⟩
    simp only [substSectionE]
    rw [if_neg hs]

theorem substSectionE_nonneg {m : CardCounts} {p : CardCounts × List String}
    (hn : Nonneg m) (hp : substSectionE m = some p) : Nonneg p.1 := by
  obtain ⟨p', hp', hcases⟩ := substSectionE_spec m
  rw [hp'] at hp
  injection hp with hpp
  subst hpp
  rcases hcases with h | ⟨t, g, _, _, _, _, hsea, _, hres⟩
  · rw [h]; exact hn
  · rw [hres]
    exact addTo_nonneg (addTo_dec_nonneg hn (by omega)) (by omega)

theorem substSectionE_hasKey {m : CardCounts} {p : CardCounts × List String}
    {k : String} (hp : substSectionE m = some p) (h : hasKey m k = true) :
    hasKey p.1 k = true := by
  obtain ⟨p', hp', hcases⟩ := substSectionE_spec m
  rw [hp'] at hp
  injection hp with hpp
  subst hpp
  rcases hcases with hres | ⟨t, g, _, _, _, _, _, _, hres⟩
  · rw [hres]; exact h
  · rw [hres]
    exact hasKey_addTo (hasKey_addTo h)

theorem hasKey_ne_nil {m : CardCounts} {k : String} (h : hasKey m k = true) :
    m ≠ [] := by
  intro hm
  rw [hm, hasKey_nil] at h
  cases h

/-! ### Helper lemmas: the collector fold -/

theorem collectorFold_some {m : CardCounts} (hn : Nonneg m) :
    ∀ (ps : List (String × List Int)) (acc : Int × List String),
      (∀ p ∈ ps, 1 ≤ p.2.length) →
      ∃ r, collectorFold m ps acc = some r ∧ ∃ extra, r.2 = acc.2 ++ extra := by
  intro ps
  induction ps with
  | nil =>
      intro acc _
      exact ⟨acc, rfl, [], by simp⟩
  | cons p ps ih =>
      intro acc hlen
      by_cases hk : hasKey m p.1 = true
      · have hl : 1 ≤ p.2.length := hlen p (List.mem_cons_self _ _)
        have hcnt : 0 ≤ getCount m p.1 := getCount_nonneg hn _
        obtain ⟨v, hv⟩ :=
          pyIndex_isSome p.2 (min (getCount m p.1) ((p.2.length : Int) - 1))
            (by omega) (by omega)
        obtain ⟨r, hr, extra, hextra⟩ :=
          ih (acc.1 + v,
              acc.2 ++ [collectorLine (min (getCount m p.1) ((p.2.length : Int) - 1)) p.1 v])
            (fun q hq => hlen q (List.mem_cons_of_mem _ hq))
        refine ⟨r, ?_, ?_⟩
        · simp only [collectorFold, if_pos hk, hv, Option.bind_eq_bind,
            Option.some_bind]
          exact hr
        · exact ⟨collectorLine (min (getCount m p.1) ((p.2.length : Int) - 1)) p.1 v :: extra,
            by rw [hextra]; simp⟩
      · obtain ⟨r, hr, extra, hextra⟩ :=
          ih acc (fun q hq => hlen q (List.mem_cons_of_mem _ hq))
        refine ⟨r, ?_, extra, hextra⟩
        simp only [collectorFold, if_neg hk]
        exact hr

theorem collectorSectionE_some {m : CardCounts} (hn : Nonneg m) :
    ∃ r, collectorSectionE m = some r := by
  obtain ⟨r, hr, _⟩ :=
    collectorFold_some hn COLLECTOR_POINTS_MAP (0, []) (by decide)
  exact ⟨r, hr⟩

/-- If a shell entry is present, the collector loop emits at least one
breakdown line (its very first step). -/
theorem collectorSectionE_shell {m : CardCounts} (hn : Nonneg m)
    (hsh : hasKey m "shell" = true) :
    ∃ r, collectorSectionE m = some r ∧ r.2 ≠ [] := by
  have hcnt : 0 ≤ getCount m "shell" := getCount_nonneg hn _
  have hlen7 : (SHELL_POINTS.length : Int) = 7 := by norm_num [SHELL_POINTS]
  obtain ⟨v, hv⟩ :=
    pyIndex_isSome SHELL_POINTS (min (getCount m "shell") ((SHELL_POINTS.length : Int) - 1))
      (by omega) (by omega)
  obtain ⟨r, hr, extra, hextra⟩ :=
    collectorFold_some hn
      [("octopus", OCTOPUS_POINTS), ("penguin", PENGUIN_POINTS), ("sailor", SAILOR_POINTS)]
      (0 + v,
       [] ++ [collectorLine (min (getCount m "shell") ((SHELL_POINTS.length : Int) - 1)) "shell" v])
      (by decide)
  refine ⟨r, ?_, ?_⟩
  · simp only [collectorSectionE, COLLECTOR_POINTS_MAP, collectorFold,
      if_pos hsh, hv, Option.bind_eq_bind, Option.some_bind]
    exact hr
  · rw [hextra]
    simp

/-! ### Helper lemmas: the shape of `scoreCoreE` -/

theorem scoreCoreE_shape {m : CardCounts} {r : Int × List String × CardCounts}
    (hr : scoreCoreE m = some r) :
    ∃ p col, substSectionE m = some p ∧ collectorSectionE p.1 = some col ∧
      r = (col.1 + (duoSection p.1).1 + (comboSection p.1).1 +
            (starfishSection p.1).1 + (multSection p.1).1,
           p.2 ++ col.2 ++ (duoSection p.1).2 ++ (comboSection p.1).2 ++
            (starfishSection p.1).2 ++ (multSection p.1).2,
           p.1) := by
  obtain ⟨p, hp, _⟩ := substSectionE_spec m
  cases hcol : collectorSectionE p.1 with
  | none =>
      rw [scoreCoreE, hp] at hr
      simp only [Option.bind_eq_bind, Option.some_bind, hcol, Option.none_bind] at hr
      exact Option.noConfusion hr
  | some col =>
      refine ⟨p, col, hp, hcol, ?_⟩
      rw [scoreCoreE, hp] at hr
      simp only [Option.bind_eq_bind, Option.some_bind, hcol, Option.pure_def] at hr
      injection hr with h
      exact h.symm

theorem scoreCoreE_some {m : CardCounts} (hn : Nonneg m) :
    ∃ r, scoreCoreE m = some r := by
  obtain ⟨p, hp, _⟩ := substSectionE_spec m
  obtain ⟨col, hcol⟩ := collectorSectionE_some (substSectionE_nonneg hn hp)
  refine ⟨(col.1 + (duoSection p.1).1 + (comboSection p.1).1 +
            (starfishSection p.1).1 + (multSection p.1).1,
           p.2 ++ col.2 ++ (duoSection p.1).2 ++ (comboSection p.1).2 ++
            (starfishSection p.1).2 ++ (multSection p.1).2,
           p.1), ?_⟩
  rw [scoreCoreE, hp]
  simp only [Option.bind_eq_bind, Option.some_bind, hcol, Option.pure_def]

/-! ### Helper lemmas: the color bonus -/

theorem length_insDesc (key : α → Nat) (x : α) (l : List α) :
    (insDesc key x l).length = l.length + 1 := by
  induction l with
  | nil => rfl
  | cons y ys ih =>
      simp only [insDesc]
      split
      · simp [ih]
      · simp

theorem length_sortDescBy (key : α → Nat) (l : List α) :
    (sortDescBy key l).length = l.length := by
  suffices h : ∀ acc : List α,
      (l.foldl (fun acc x => insDesc key x acc) acc).length = acc.length + l.length by
    simpa using h []
  induction l with
  | nil => intro acc; simp
  | cons y ys ih =>
      intro acc
      simp only [List.foldl_cons]
      rw [ih (insDesc key y acc), length_insDesc, List.length_cons]
      omega

theorem colorCore_spec (n : Nat) (colors : List Nat) :
    (colorCoreE n colors).map Prod.fst = some (specColorBonus colors n) := by
  by_cases hn : n ≥ 1
  · have hn0 : ¬n = 0 := by omega
    simp only [colorCoreE, if_pos hn, specColorBonus,
      if_neg hn0, length_sortDescBy]
    rfl
  · have hn0 : n = 0 := by omega
    subst hn0
    cases colors with
    | nil => simp [colorCoreE, specColorBonus]
    | cons x xs =>
        simp [colorCoreE, pyMax, specColorBonus, Nat.zero_max]

/-! ### Claim C5 -/

/-- C5: for every input text, the numeric color bonus is zero whenever
`called_last_chance` is false, and zero whenever the requester is not the
caller and the caller failed; in the remaining three called-last-chance
cases (caller+succeeded, caller+failed, not-caller+caller-succeeded) the
numeric value is the same — those cases only change the explanation text. -/
theorem C5_flag_gating (text : String) (k s : Bool) :
    (calculate_color_bonusE text false k s).map Prod.fst = some 0 ∧
    (calculate_color_bonusE text true false false).map Prod.fst = some 0 ∧
    (calculate_color_bonusE text true true false).map Prod.fst =
      (calculate_color_bonusE text true true true).map Prod.fst ∧
    (calculate_color_bonusE text true false true).map Prod.fst =
      (calculate_color_bonusE text true true true).map Prod.fst := by
  refine ⟨rfl, ?_, ?_, ?_⟩ <;>
  · by_cases hms : (scanColors text).isEmpty = true
    · simp [calculate_color_bonusE, hms]
    · cases hcore : colorCoreE (processMatches (scanColors text)).1
          (processMatches (scanColors text)).2 with
      | none =>
          have hs := colorCore_spec (processMatches (scanColors text)).1
            (processMatches (scanColors text)).2
          rw [hcore] at hs
          cases hs
      | some r =>
          simp [calculate_color_bonusE, hms, hcore]

/-! ### Claim C6 -/

/-- C6: the numeric bonus (in the called-last-chance, caller-succeeded case)
equals the spec rule on the parsed color groups and mermaid count: with no
mermaids, the single largest color group (zero when there are no groups);
with N ≥ 1 mermaids, the sum of the top min(N, number-of-groups) groups
sorted descending — e.g. groups [4,3,1] with 2 mermaids give 7, with 0
mermaids give 4. -/
theorem C6_bonus_key_unlocking (text : String) :
    (calculate_color_bonusE text true true true).map Prod.fst =
      some (specColorBonus (colorGroupsOf text) (mermaidCountOf text)) := by
  by_cases hms : (scanColors text).isEmpty = true
  · have h : scanColors text = [] := by
      cases h' : scanColors text with
      | nil => rfl
      | cons a l => rw [h'] at hms; cases hms
    simp [calculate_color_bonusE, hms, colorGroupsOf, mermaidCountOf, h,
      processMatches, specColorBonus]
  · cases hcore : colorCoreE (processMatches (scanColors text)).1
        (processMatches (scanColors text)).2 with
    | none =>
        have hs := colorCore_spec (processMatches (scanColors text)).1
          (processMatches (scanColors text)).2
        rw [hcore] at hs
        cases hs
    | some r =>
        have hs := colorCore_spec (processMatches (scanColors text)).1
          (processMatches (scanColors text)).2
        rw [hcore] at hs
        injection hs with hs1
        simp only [calculate_color_bonusE, Bool.not_true, Bool.false_eq_true,
          if_false, hms, hcore, Option.bind_eq_bind, Option.some_bind,
          if_true, Option.pure_def, Option.map_some]
        simp only [colorGroupsOf, mermaidCountOf]
        rw [← hs1]
        rfl

/-! ### Claim C9 -/

/-- C9: in the color-bonus parse, every matched pair whose word does not
contain "mermaid" contributes its count as its own separate color group:
there is no color vocabulary check, and a repeated color word appends a new
distinct group instead of accumulating into an existing one. -/
theorem C9_separate_groups (ms : List (Nat × String)) (c : Nat) (w : String)
    (hw : hasSub "mermaid" w = false) :
    processMatches (ms ++ [(c, w)]) =
      ((processMatches ms).1, (processMatches ms).2 ++ [c]) := by
  simp [processMatches, List.foldl_append, hw]

/-- C9 witness: "2 blue" then "3 blue" yield the two distinct groups [2, 3]
(not a single accumulated group of 5), and "banana" needs no vocabulary. -/
theorem C9_separate_groups_witness :
    hasSub "mermaid" "blue" = false ∧
    processMatches [(2, "blue"), (3, "blue")] = (0, [2, 3]) := by
  constructor
  · decide
  · have h := C9_separate_groups [(2, "blue")] 3 "blue" (by decide)
    rw [show ([(2, "blue"), (3, "blue")] : List (Nat × String)) =
      [(2, "blue")] ++ [(3, "blue")] from rfl, h]
    decide

/-! ### Claim C8 -/

/-- C8: for every string input (including empty, malformed and unrecognized
text) and every flag combination, both `calculate_score` and
`calculate_color_bonus` are total — every fallible Python operation they
perform (list indexing, `max`) is reached only in a state where it succeeds,
so the functions always return a normal result tuple instead of raising. -/
theorem C8_never_raises (text : String) (c k s : Bool) :
    (calculate_scoreE text).isSome = true ∧
    (calculate_color_bonusE text c k s).isSome = true := by
  constructor
  · by_cases hms : (scanCards text).isEmpty = true
    · simp [calculate_scoreE, hms]
    · obtain ⟨r, hr⟩ := scoreCoreE_some (buildCounts_nonneg (scanCards text))
      simp only [calculate_scoreE, hms, Bool.false_eq_true, if_false, hr,
        Option.bind_eq_bind, Option.some_bind]
      split <;> simp
  · cases c with
    | false => rfl
    | true =>
        by_cases hms : (scanColors text).isEmpty = true
        · simp [calculate_color_bonusE, hms]
        · cases hcore : colorCoreE (processMatches (scanColors text)).1
              (processMatches (scanColors text)).2 with
          | none =>
              have hs := colorCore_spec (processMatches (scanColors text)).1
                (processMatches (scanColors text)).2
              rw [hcore] at hs
              cases hs
          | some r =>
              simp only [calculate_color_bonusE, Bool.not_true,
                Bool.false_eq_true, if_false, hms, hcore,
                Option.bind_eq_bind, Option.some_bind]
              cases k <;> cases s <;> simp

/-! ### Claim C10 -/

/-- C10: every count in the card-count map returned by `calculate_score` is
non-negative: parsing only accumulates non-negative matched counts, and the
only in-place mutation (the seahorse substitution) decrements the seahorse
count only when it is at least one. -/
theorem C10_counts_nonneg (text : String) (r : String × CardCounts)
    (h : calculate_scoreE text = some r) : ∀ p ∈ r.2, 0 ≤ p.2 := by
  by_cases hms : (scanCards text).isEmpty = true
  · simp only [calculate_scoreE, hms, if_true, Option.pure_def,
      Option.some.injEq] at h
    rw [← h]
    intro p hp
    cases hp
  · obtain ⟨rc, hrc⟩ := scoreCoreE_some (buildCounts_nonneg (scanCards text))
    obtain ⟨p, col, hp, hcol, hshape⟩ := scoreCoreE_shape hrc
    have hn1 : Nonneg p.1 :=
      substSectionE_nonneg (buildCounts_nonneg (scanCards text)) hp
    simp only [calculate_scoreE, hms, Bool.false_eq_true, if_false, hrc,
      Option.bind_eq_bind, Option.some_bind, Option.pure_def] at h
    split at h
    · rw [← Option.some_inj.mp h]
      intro q hq
      cases hq
    · rw [← Option.some_inj.mp h]
      have : rc.2.2 = p.1 := by rw [hshape]
      rw [this]
      exact hn1

/-- C10 witness: the map returned for "1 shell" has the non-negative count
of its shell entry. -/
theorem C10_counts_nonneg_witness :
    0 ≤ (("shell", (1 : Int)) : String × Int).2 :=
  C10_counts_nonneg "1 shell"
    ("Here" ++ apos ++ "s your score breakdown:\n• 1 Shell(s): 0 pts\n\n**Total Score: 0**",
      [("shell", 1)])
    rfl ("shell", 1) (by decide)

/-! ### Claim C1 -/

/-- C1 (amended): each call applies at most one seahorse substitution, no
matter how many seahorse units are present: a single greedy pass over the
collector categories that are present with strictly positive count picks one
whose clamped-table marginal gain is maximal among those categories, applies
it only when that gain is strictly positive, and moves exactly one unit
(seahorse decremented by one, the chosen collector incremented by one);
collectors not present are never considered, and remaining seahorse units
are ignored. -/
theorem C1_amended_single_substitution (m : CardCounts) :
    ∃ p, substSectionE m = some p ∧
      (p = (m, []) ∨
        ∃ t g, t ∈ COLLECTOR_TYPES ∧ 0 < getCount m t ∧ gainAt m t = some g ∧
          0 < g ∧ 0 < getCount m "seahorse" ∧
          (∀ u ∈ COLLECTOR_TYPES, 0 < getCount m u →
            ∃ gu, gainAt m u = some gu ∧ gu ≤ g) ∧
          p = (addTo (addTo m "seahorse" (-1)) t 1, [substLine t g])) :=
  substSectionE_spec m

/-- C1 counterexample: with two seahorses the code applies at most one
substitution while the claim's per-unit greedy process applies one per unit.
For "2 seahorse, 1 octopus" the code returns a map with one seahorse left
(one substitution applied); for "2 seahorse, 6 shell" it returns the counts
untouched (the only present collector is already capped, and absent
collectors such as penguin are never considered).  The claim's process ends
with zero seahorses on both inputs. -/
theorem C1_counterexample :
    calculate_scoreE "2 seahorse, 1 octopus" =
      some ("Here" ++ apos ++ "s your score breakdown:\n• 1 Seahorse used for octopus: +3 pts\n• 2 Octopus(s): 3 pts\n\n**Total Score: 3**",
        [("seahorse", 1), ("octopus", 2)]) ∧
    getCount (specSubstituteAll (buildCounts (scanCards "2 seahorse, 1 octopus"))) "seahorse" = 0 ∧
    calculate_scoreE "2 seahorse, 6 shell" =
      some ("Here" ++ apos ++ "s your score breakdown:\n• 6 Shell(s): 10 pts\n\n**Total Score: 10**",
        [("seahorse", 2), ("shell", 6)]) ∧
    getCount (specSubstituteAll (buildCounts (scanCards "2 seahorse, 6 shell"))) "seahorse" = 0 :=
  ⟨rfl, by decide, rfl, by decide⟩

/-! ### Claim C2 -/

/-- C2: evaluating the code at "2 crabs, 1 starfish".  The crab pair scores
its duo point, the starfish trio then adds a further 3 points without
removing the duo's point — total 4 — although the code's own comment and
breakdown text ("replaces the duo score (1 point) with 3 points, net gain of
+2", "duo effect canceled") and the claim both call for a total of 3. -/
theorem C2_trio_total_at_failing_input :
    calculate_scoreE "2 crabs, 1 starfish" =
      some ("Here" ++ apos ++ "s your score breakdown:\n• 1 pair(s) of Crabs: 1 pts\n• 2 leftover Crab(s): 0 pts\n• 1 Starfish Trio(s): 3 pts (duo effect canceled)\n\n**Total Score: 4**",
        [("crab", 2), ("starfish", 1)]) := rfl

/-! ### Claim C3 -/

/-- C3 counterexample: for "2 crabs, 1 lobster, 1 basket" the crab+lobster
combo consumes one crab, leaving one crab post-consumption, so the claim
predicts a basket multiplier line of 1·1 = 1 point; the code instead reads
the unreduced map count and emits "Basket + Crabs: 2 pts" (and no 1-point
line exists in the breakdown). -/
theorem C3_counterexample :
    scoreCoreE [("crab", 2), ("lobster", 1), ("basket", 1)] =
      some (4,
        ["1 pair(s) of Crabs: 1 pts", "1 Crab+Lobster combo(s): 1 pts",
         "Basket + Crabs: 2 pts"],
        [("crab", 2), ("lobster", 1), ("basket", 1)]) ∧
    ("Basket + Crabs: 1 pts" ∈
      (["1 pair(s) of Crabs: 1 pts", "1 Crab+Lobster combo(s): 1 pts",
        "Basket + Crabs: 2 pts"] : List String)) = False :=
  ⟨rfl, by simp⟩

/-- The basket multiplier block always emits its line computed from the map
counts when both keys are present. -/
theorem multSection_basket {m : CardCounts} (hb : hasKey m "basket" = true)
    (hc : hasKey m "crab" = true) :
    ("Basket + Crabs: " ++ toString (getCount m "basket" * getCount m "crab") ++ " pts")
      ∈ (multSection m).2 := by
  simp only [multSection, hb, hc, Bool.and_self, if_true]
  simp [List.mem_append]

/-- C3 (amended): multiplier contributions read the card-count map as it
stands after the substitution step; combo consumption in the combo step only
updates local variables, so a multiplier whose input type was consumed by a
combo still multiplies the unreduced map count.  In particular the returned
breakdown always carries a basket line equal to basket·crab of the returned
(post-substitution) map whenever both keys are present. -/
theorem C3_amended_multiplier_unreduced (m : CardCounts)
    (r : Int × List String × CardCounts) (hr : scoreCoreE m = some r)
    (hb : hasKey r.2.2 "basket" = true) (hc : hasKey r.2.2 "crab" = true) :
    ("Basket + Crabs: " ++ toString (getCount r.2.2 "basket" * getCount r.2.2 "crab") ++ " pts")
      ∈ r.2.1 := by
  obtain ⟨p, col, hp, hcol, hshape⟩ := scoreCoreE_shape hr
  rw [hshape] at hb hc ⊢
  simp only at hb hc ⊢
  have hmem := multSection_basket hb hc
  simp only [List.mem_append]
  tauto

/-- C3 amended witness: the theorem applied at the concrete counterexample
input, where the basket line multiplies the unreduced crab count 2. -/
theorem C3_amended_multiplier_unreduced_witness :
    ("Basket + Crabs: " ++ toString ((1 : Int) * 2) ++ " pts")
      ∈ (["1 pair(s) of Crabs: 1 pts", "1 Crab+Lobster combo(s): 1 pts",
          "Basket + Crabs: 2 pts"] : List String) :=
  C3_amended_multiplier_unreduced
    [("crab", 2), ("lobster", 1), ("basket", 1)]
    (4,
     ["1 pair(s) of Crabs: 1 pts", "1 Crab+Lobster combo(s): 1 pts",
      "Basket + Crabs: 2 pts"],
     [("crab", 2), ("lobster", 1), ("basket", 1)])
    rfl rfl rfl

/-! ### Claim C4 -/

/-- C4 counterexample: a single shell produces no nonzero breakdown entry,
yet the code returns the normal response (total 0 with the zero-point line
"1 Shell(s): 0 pts" and a non-empty count map), not the "no scorable cards"
guidance outcome the claim requires. -/
theorem C4_counterexample :
    calculate_scoreE "1 shell" =
      some ("Here" ++ apos ++ "s your score breakdown:\n• 1 Shell(s): 0 pts\n\n**Total Score: 0**",
        [("shell", 1)]) ∧
    ("Here" ++ apos ++ "s your score breakdown:\n• 1 Shell(s): 0 pts\n\n**Total Score: 0**") ≠
      noScorableMsg ∧
    ([("shell", (1 : Int))] : CardCounts) ≠ [] :=
  ⟨rfl, by decide, by decide⟩

/-- C4 (amended): the guidance outcome is keyed on the breakdown being
empty, and zero-point entries count as breakdown entries; since the
collector loop emits a line for every present collector key regardless of
its point value, any input whose parsed counts contain a collector (e.g. a
shell) gets a normal response with a non-empty returned count map, never the
guidance outcome. -/
theorem C4_amended_normal_response (text : String)
    (h : hasKey (buildCounts (scanCards text)) "shell" = true) :
    ∃ r, calculate_scoreE text = some r ∧ r.2 ≠ [] := by
  have hne : (scanCards text).isEmpty = true → False := by
    intro hm
    rw [List.isEmpty_iff] at hm
    rw [hm] at h
    exact absurd h (by decide)
  have hne' : (scanCards text).isEmpty = false := by
    cases hb : (scanCards text).isEmpty
    · rfl
    · exact absurd hb hne
  have hn := buildCounts_nonneg (scanCards text)
  obtain ⟨p, hp, _⟩ := substSectionE_spec (buildCounts (scanCards text))
  have hn1 : Nonneg p.1 := substSectionE_nonneg hn hp
  have hk1 : hasKey p.1 "shell" = true := substSectionE_hasKey hp h
  obtain ⟨col, hcol, hlines⟩ := collectorSectionE_shell hn1 hk1
  have hrc : scoreCoreE (buildCounts (scanCards text)) =
      some (col.1 + (duoSection p.1).1 + (comboSection p.1).1 +
             (starfishSection p.1).1 + (multSection p.1).1,
            p.2 ++ col.2 ++ (duoSection p.1).2 ++ (comboSection p.1).2 ++
             (starfishSection p.1).2 ++ (multSection p.1).2,
            p.1) := by
    rw [scoreCoreE, hp]
    simp only [Option.bind_eq_bind, Option.some_bind, hcol, Option.pure_def]
  have hbne : (p.2 ++ col.2 ++ (duoSection p.1).2 ++ (comboSection p.1).2 ++
      (starfishSection p.1).2 ++ (multSection p.1).2).isEmpty = false := by
    cases hcl : col.2 with
    | nil => exact absurd hcl hlines
    | cons a l => simp [hcl]
  refine ⟨(renderResponse
            (col.1 + (duoSection p.1).1 + (comboSection p.1).1 +
              (starfishSection p.1).1 + (multSection p.1).1)
            (p.2 ++ col.2 ++ (duoSection p.1).2 ++ (comboSection p.1).2 ++
              (starfishSection p.1).2 ++ (multSection p.1).2),
          p.1), ?_, hasKey_ne_nil hk1⟩
  simp only [calculate_scoreE, hne', Bool.false_eq_true, if_false, hrc,
    Option.bind_eq_bind, Option.some_bind, hbne, Option.pure_def]

/-- C4 amended witness: the theorem applied at "1 shell". -/
theorem C4_amended_normal_response_witness :
    hasKey (buildCounts (scanCards "1 shell")) "shell" = true ∧
    ∃ r, calculate_scoreE "1 shell" = some r ∧ r.2 ≠ [] :=
  ⟨by decide, C4_amended_normal_response "1 shell" (by decide)⟩

/-! ### Claim C7 -/

/-- C7 counterexample: "3 boats" scores 3 // 2 = 1 point, but the breakdown
is exactly the single pair line — the odd leftover boat is NOT reported as a
zero-point leftover line (no line mentioning a leftover exists at all). -/
theorem C7_counterexample :
    calculate_scoreE "3 boats" =
      some ("Here" ++ apos ++ "s your score breakdown:\n• 1 pair(s) of Boats: 1 pts\n\n**Total Score: 1**",
        [("boat", 3)]) ∧
    scoreCoreE [("boat", 3)] =
      some (1, ["1 pair(s) of Boats: 1 pts"], [("boat", 3)]) ∧
    (["1 pair(s) of Boats: 1 pts"] : List String).all
      (fun l => !(hasSub "leftover" l)) = true :=
  ⟨rfl, rfl, by decide⟩

/-- C7 (amended): for each duo-eligible type with an odd count n, base
scoring awards n // 2 points, but the odd remainder is not reported for
boats and fish (their breakdown holds at most the single pair line); for
crabs, the crab+lobster step emits a leftover line carrying the full crab
count not consumed by lobsters (here the whole n), not the odd pairing
remainder. -/
theorem C7_amended_duo_odd (n : Nat) (hodd : n % 2 = 1) :
    (∃ r, scoreCoreE [("boat", (n : Int))] = some r ∧ r.1 = (n : Int) / 2 ∧
      (r.2.1 = [] ∨ r.2.1 = [duoLine ((n : Int).fdiv 2) "boat"])) ∧
    (∃ r, scoreCoreE [("fish", (n : Int))] = some r ∧ r.1 = (n : Int) / 2 ∧
      (r.2.1 = [] ∨ r.2.1 = [duoLine ((n : Int).fdiv 2) "fish"])) ∧
    (∃ r, scoreCoreE [("crab", (n : Int))] = some r ∧ r.1 = (n : Int) / 2 ∧
      (toString (n : Int) ++ " leftover Crab(s): 0 pts") ∈ r.2.1) := by
  have hx : (0 : Int) ≤ (n : Int) := Int.natCast_nonneg n
  have hx1 : (1 : Int) ≤ (n : Int) := by omega
  have hfd : ((n : Int)).fdiv 2 = (n : Int) / 2 := Int.fdiv_eq_ediv _ (by norm_num)
  refine ⟨?_, ?_, ?_⟩
  · set x : Int := (n : Int) with hxdef
    set m : CardCounts := [("boat", x)] with hmdef
    have h1 : substSectionE m = some (m, []) := rfl
    have h2 : collectorSectionE m = some (0, []) := rfl
    have h3 : comboSection m = (0, []) := rfl
    have h4 : starfishSection m = (0, []) := rfl
    have h5 : multSection m = (0, []) := rfl
    have hck : hasKey m "crab" = false := rfl
    have hbk : hasKey m "boat" = true := rfl
    have hfk : hasKey m "fish" = false := rfl
    have hgb : getCount m "boat" = x := rfl
    have h6 : duoSection m =
        if x.fdiv 2 > 0 then (0 + x.fdiv 2, [] ++ [duoLine (x.fdiv 2) "boat"])
        else (0, []) := by
      simp only [duoSection, duoFold, hck, hbk, hfk, hgb, Bool.false_eq_true,
        if_false, if_true]
    have h7 : scoreCoreE m = some
        (0 + (duoSection m).1 + 0 + 0 + 0,
         ([] : List String) ++ [] ++ (duoSection m).2 ++ [] ++ [] ++ [],
         m) := by
      rw [scoreCoreE, h1]
      simp [h2, h3, h4, h5]
    rw [h6] at h7
    by_cases hp : x.fdiv 2 > 0
    · rw [if_pos hp] at h7
      refine ⟨_, h7, ?_, Or.inr (by simp)⟩
      simp only
      omega
    · rw [if_neg hp] at h7
      refine ⟨_, h7, ?_, Or.inl (by simp)⟩
      simp only
      omega
  · set x : Int := (n : Int) with hxdef
    set m : CardCounts := [("fish", x)] with hmdef
    have h1 : substSectionE m = some (m, []) := rfl
    have h2 : collectorSectionE m = some (0, []) := rfl
    have h3 : comboSection m = (0, []) := rfl
    have h4 : starfishSection m = (0, []) := rfl
    have h5 : multSection m = (0, []) := rfl
    have hck : hasKey m "crab" = false := rfl
    have hbk : hasKey m "boat" = false := rfl
    have hfk : hasKey m "fish" = true := rfl
    have hgf : getCount m "fish" = x := rfl
    have h6 : duoSection m =
        if x.fdiv 2 > 0 then (0 + x.fdiv 2, [] ++ [duoLine (x.fdiv 2) "fish"])
        else (0, []) := by
      simp only [duoSection, duoFold, hck, hbk, hfk, hgf, Bool.false_eq_true,
        if_false, if_true]
    have h7 : scoreCoreE m = some
        (0 + (duoSection m).1 + 0 + 0 + 0,
         ([] : List String) ++ [] ++ (duoSection m).2 ++ [] ++ [] ++ [],
         m) := by
      rw [scoreCoreE, h1]
      simp [h2, h3, h4, h5]
    rw [h6] at h7
    by_cases hp : x.fdiv 2 > 0
    · rw [if_pos hp] at h7
      refine ⟨_, h7, ?_, Or.inr (by simp)⟩
      simp only
      omega
    · rw [if_neg hp] at h7
      refine ⟨_, h7, ?_, Or.inl (by simp)⟩
      simp only
      omega
  · set x : Int := (n : Int) with hxdef
    set m : CardCounts := [("crab", x)] with hmdef
    have h1 : substSectionE m = some (m, []) := rfl
    have h2 : collectorSectionE m = some (0, []) := rfl
    have h4 : starfishSection m = (0, []) := rfl
    have h5 : multSection m = (0, []) := rfl
    have hck : hasKey m "crab" = true := rfl
    have hbk : hasKey m "boat" = false := rfl
    have hfk : hasKey m "fish" = false := rfl
    have hgc : getCount m "crab" = x := rfl
    have hgsh : getCount m "shark" = 0 := rfl
    have hgsw : getCount m "swimmer" = 0 := rfl
    have hgj : getCount m "jellyfish" = 0 := rfl
    have hgl : getCount m "lobster" = 0 := rfl
    have hgba : getCount m "basket" = 0 := rfl
    have h6 : duoSection m =
        if x.fdiv 2 > 0 then (0 + x.fdiv 2, [] ++ [duoLine (x.fdiv 2) "crab"])
        else (0, []) := by
      simp only [duoSection, duoFold, hck, hbk, hfk, hgc, Bool.false_eq_true,
        if_false, if_true]
    have h3 : comboSection m = (0, [toString x ++ " leftover Crab(s): 0 pts"]) := by
      simp only [comboSection, hgsh, hgsw, hgj, hgc, hgl, hgba]
      norm_num
      have h0 : x - x ⊓ 0 = x := by omega
      rw [h0, if_pos (show (0 : Int) < x by omega)]
    have h7 : scoreCoreE m = some
        (0 + (duoSection m).1 + (comboSection m).1 + 0 + 0,
         ([] : List String) ++ [] ++ (duoSection m).2 ++ (comboSection m).2 ++ [] ++ [],
         m) := by
      rw [scoreCoreE, h1]
      simp [h2, h4, h5]
    rw [h3, h6] at h7
    by_cases hp : x.fdiv 2 > 0
    · rw [if_pos hp] at h7
      refine ⟨_, h7, ?_, by simp⟩
      simp only
      omega
    · rw [if_neg hp] at h7
      refine ⟨_, h7, ?_, by simp⟩
      simp only
      omega

/-- C7 amended witness: the boat part of the theorem applied at n = 3. -/
theorem C7_amended_duo_odd_witness :
    ∃ r, scoreCoreE [("boat", ((3 : Nat) : Int))] = some r ∧
      r.1 = ((3 : Nat) : Int) / 2 ∧
      (r.2.1 = [] ∨ r.2.1 = [duoLine (((3 : Nat) : Int).fdiv 2) "boat"]) :=
  (C7_amended_duo_odd 3 (by decide)).1
